import Mathlib

set_option maxHeartbeats 1000000

/-!
Shallow embedding of the cognitive-state engine of Obsidian-MindForge.

JS `number` arithmetic is modelled over `ℚ` where the source only adds,
multiplies and divides, and over `ℝ` where it calls `Math.exp`, `Math.log`,
`Math.sqrt`, `Math.sin` or `Math.tanh`.  `Number(x.toFixed(2))` is modelled
by `round2` (round to the nearest multiple of 1/100, ties up, matching
`toFixed`'s "pick the larger n" rule).  JS `Map` objects are modelled as
insertion-ordered association lists with `mapSet` / `List.lookup`.
A JS computation whose value is `NaN` (logarithm of a negative number) is
modelled by an `Option` result of `none`; a JS statement that throws
(property assignment on `undefined`) is modelled with `Except`.
-/

/-- JS Map.set: update the value in place if the key is present (keeping its
position), otherwise append the binding at the end. -/
def mapSet {α : Type} : List (String × α) → String → α → List (String × α)
  | [], k, v => [(k, v)]
  | (k1, v1) :: rest, k, v =>
    if k1 = k then (k, v) :: rest else (k1, v1) :: mapSet rest k v

/-- Number(x.toFixed(2)): round to the nearest hundredth, ties rounded up
(toFixed picks the larger candidate integer on a tie). -/
noncomputable def round2 (x : ℝ) : ℝ := ((round (100 * x) : ℤ) : ℝ) / 100

/-- The numeric tunables of MyPluginSettings used by the weight model
(part_001 lines 15-25; the remaining fields are strings or API options). -/
structure MyPluginSettings where
  decayLambda : ℝ
  betaCoefficient : ℝ
  initialWeight : ℝ
  alpha : ℝ

/-- DEFAULT_SETTINGS (part_001 lines 50-60): decayLambda 0.05,
betaCoefficient 0.2, initialWeight 0.5, alpha 1. -/
noncomputable def DEFAULT_SETTINGS : MyPluginSettings :=
  ⟨1/20, 1/5, 1/2, 1⟩

/-- One value of CognitiveWeightData (part_001 lines 6-13). -/
structure WeightEntry where
  initialWeight : ℝ
  lastUpdated : ℝ
  interactionCount : ℕ
  previousEngagement : Option ℚ

/-- DataManager.calculateCurrentWeight (part_001 lines 104-124), for an entry
present in the store.  `now` is Date.now() in milliseconds; `dayOfYear` is
the day-of-year the source derives from the same clock via Date arithmetic
(passed here as a parameter; it only enters through the seasonal sine). -/
noncomputable def calculateCurrentWeight (s : MyPluginSettings)
    (dayOfYear now : ℝ) (data : WeightEntry) : ℝ :=
  let daysElapsed := (now - data.lastUpdated) / (1000 * 60 * 60 * 24)
  let lambda := s.decayLambda + 0.01 * Real.sin (2 * Real.pi * dayOfYear / 365)
  let sqrtDays := Real.sqrt daysElapsed
  let timeDecay := s.alpha * data.initialWeight * Real.exp (-lambda * sqrtDays)
  let N : ℝ := data.interactionCount
  let beta := s.betaCoefficient * (1 + 0.5 * Real.tanh ((N - 3) / 2))
  let interactionBoost := beta * (1 - 1 / (1 + Real.logb 2 (N + 1)))
  round2 (timeDecay + interactionBoost)

/-- The body of DataManager.applyDailyDecay's loop for one entry (part_001
lines 126-135): replace initialWeight with the just-computed current weight,
reset interactionCount to 0, set lastUpdated to now.  No clamping happens. -/
noncomputable def applyDailyDecayEntry (s : MyPluginSettings)
    (dayOfYear now : ℝ) (e : WeightEntry) : WeightEntry :=
  { e with
    initialWeight := calculateCurrentWeight s dayOfYear now e
    interactionCount := 0
    lastUpdated := now }

/-- DataManager.applyDailyDecay (part_001 lines 126-135) over the whole
stored map. -/
noncomputable def applyDailyDecay (s : MyPluginSettings) (dayOfYear now : ℝ)
    (data : List (String × WeightEntry)) : List (String × WeightEntry) :=
  data.map (fun p => (p.1, applyDailyDecayEntry s dayOfYear now p.2))

/-- DeepSeekPlugin.calculateReviewInterval (main.ts lines 101-105):
min(maxReviewInterval, max(1, round(10 * (1 - base)))). -/
def calculateReviewInterval (maxReviewInterval : ℚ) (base : ℚ) : ℚ :=
  let baseInterval : ℚ := max 1 ((round ((10 : ℚ) * (1 - base)) : ℤ) : ℚ)
  min maxReviewInterval baseInterval

/-- Damping factor of the PageRank-like iteration (part_001 line 244). -/
def dampingFactor : ℚ := 85/100

/-- Initial PageRank values (part_001 line 248): every key of the link graph
maps to 1/size.  File paths in a vault are distinct, so the JS Map's size is
the list's length. -/
def buildInitialPagerank (linkGraph : List (String × List String)) :
    List (String × ℚ) :=
  linkGraph.map (fun p => (p.1, 1 / (linkGraph.length : ℚ)))

/-- The first half of one PageRank iteration (part_001 lines 252-261): build
newRank by having every node with out-links send
dampingFactor * rank/outDegree to each of its link targets.  A node with no
out-links contributes nothing.  `pagerank.get(current)!` is modelled by
`getD 0`; `current` is always a key of the initialized pagerank map. -/
def distributeContributions (linkGraph : List (String × List String))
    (pagerank : List (String × ℚ)) : List (String × ℚ) :=
  linkGraph.foldl
    (fun newRank p =>
      let contribution : ℚ :=
        if p.2.length > 0 then
          dampingFactor * (((List.lookup p.1 pagerank).getD 0) / (p.2.length : ℚ))
        else 0
      p.2.foldl
        (fun nr link => mapSet nr link (((List.lookup link nr).getD 0) + contribution))
        newRank)
    []

/-- One full PageRank iteration (part_001 lines 251-268): after building
newRank, only the keys PRESENT IN newRank get updated, each to its previous
rank plus its received contribution plus the uniform random jump.  Keys that
received no contribution are left untouched (in particular the random-jump
term is not added to them). -/
def centralityIteration (linkGraph : List (String × List String))
    (pagerank : List (String × ℚ)) : List (String × ℚ) :=
  let newRank := distributeContributions linkGraph pagerank
  let randomJump : ℚ := (1 - dampingFactor) / (linkGraph.length : ℚ)
  newRank.foldl
    (fun pr q => mapSet pr q.1 (((List.lookup q.1 pr).getD 0) + q.2 + randomJump))
    pagerank

/-- DataManager.calculateCentrality (part_001 lines 231-271) for a given link
graph (an insertion-ordered map from file path to the list of its wiki-link
targets): ten iterations, then the target file's rank, or 0 if absent. -/
def calculateCentrality (linkGraph : List (String × List String))
    (filePath : String) : ℚ :=
  (List.lookup filePath
    ((centralityIteration linkGraph)^[10] (buildInitialPagerank linkGraph))).getD 0

/-- One value of the interactionDurations record (part_001 lines 34-39). -/
structure InteractionDuration where
  startTime : ℚ
  contentLength : ℕ
  durations : List ℚ
  linkCount : ℕ

/-- The two per-node stores of DataManager that calculateEngagement touches
(part_001 lines 65-66). -/
structure DataManagerState where
  data : List (String × WeightEntry)
  interactionDurations : List (String × InteractionDuration)

/-- DataManager.calculateEngagement (part_001 lines 213-229).  With no
tracked session it returns 0 and touches nothing.  With a tracked session it
computes the raw score, blends it with the stored previousEngagement by an
EMA with factor 0.2 (JS `|| engagementScore` also replaces a stored 0), and
writes the new EMA back; if `data[filePath]` is missing the write-back line
throws a TypeError, modelled as `Except.error`. -/
def calculateEngagement (st : DataManagerState) (filePath : String) :
    Except String (ℚ × DataManagerState) :=
  match List.lookup filePath st.interactionDurations with
  | none => Except.ok (0, st)
  | some tracking =>
    let totalDuration := tracking.durations.sum
    let engagementScore : ℚ :=
      (totalDuration * (6/10) + (tracking.linkCount : ℚ) * (4/10)) /
        (if tracking.contentLength = 0 then 1 else (tracking.contentLength : ℚ))
    let alpha : ℚ := 2/10
    let previousEMA : ℚ :=
      match (List.lookup filePath st.data).bind WeightEntry.previousEngagement with
      | some p => if p = 0 then engagementScore else p
      | none => engagementScore
    let currentEMA := alpha * engagementScore + (1 - alpha) * previousEMA
    match List.lookup filePath st.data with
    | none => Except.error "TypeError"
    | some e =>
      Except.ok (currentEMA,
        ⟨mapSet st.data filePath { e with previousEngagement := some currentEMA },
         st.interactionDurations⟩)

/-- MemoryStrengthData (part_001 lines 41-48). -/
structure MemoryStrengthData where
  EF : ℚ
  consecutiveSuccess : ℕ
  consecutiveFailures : ℕ
  lastTestResult : Bool
  historicalSuccessRate : List ℚ
  lastReviewTime : ℚ

/-- The rolling success rate of calculateMemoryStrength (part_001 lines
375-376): the window's mean, or 0.7 for an empty window. -/
def successRateOf (history : List ℚ) : ℚ :=
  if history.length > 0 then history.sum / (history.length : ℚ) else 7/10

/-- The easiness factor recomputed by calculateMemoryStrength (part_001 lines
378-381): alpha = rate*10, beta = (1-rate)*10,
EF = min(2.5, max(1.3, beta*0.8/(alpha+beta))). -/
def memoryEF (history : List ℚ) : ℚ :=
  let successRate := successRateOf history
  let alpha := successRate * 10
  let beta := (1 - successRate) * 10
  min (5/2) (max (13/10) (beta * (8/10) / (alpha + beta)))

/-- DataManager.calculateMemoryStrength (part_001 lines 366-392) as a
function of the node's memory record (a missing record uses the defaults of
lines 367-372, i.e. a record with empty history, zero streaks and
lastTestResult absent = false). -/
noncomputable def calculateMemoryStrength (m : MemoryStrengthData) : ℝ :=
  let EF : ℝ := (memoryEF m.historicalSuccessRate : ℚ)
  if m.lastTestResult then
    EF * (1 + (2/10) * Real.log ((m.consecutiveSuccess : ℝ) + 1))
  else
    max 1 (EF * (6/10) * (1 - (1/10) * (m.consecutiveFailures : ℝ)))

/-- Branch (a) of the due-file filter in MyPlugin.getDueFiles (part_001 line
690): strength below 0.8 and fewer than 3 consecutive successes. -/
def dueConditionA (m : MemoryStrengthData) : Prop :=
  calculateMemoryStrength m < 8/10 ∧ m.consecutiveSuccess < 3

/-- The default memory record created by updateTestResult on first use
(part_001 lines 396-405). -/
def initMemoryData (now : ℚ) : MemoryStrengthData :=
  ⟨5/2, 0, 0, false, [], now⟩

/-- DataManager.updateTestResult (part_001 lines 395-424) on one node's
(possibly absent) memory record: refresh lastReviewTime and lastTestResult,
update the streak counters, then push 1/0 onto the window, shifting the
oldest entry out first when the window already holds 100 or more. -/
def updateTestResult (now : ℚ) (m : Option MemoryStrengthData)
    (isCorrect : Bool) : MemoryStrengthData :=
  let data := m.getD (initMemoryData now)
  let data1 := { data with lastReviewTime := now, lastTestResult := isCorrect }
  let data2 :=
    if isCorrect then
      { data1 with consecutiveSuccess := data1.consecutiveSuccess + 1,
                   consecutiveFailures := 0 }
    else
      { data1 with consecutiveFailures := data1.consecutiveFailures + 1,
                   consecutiveSuccess := 0 }
  let window :=
    if data2.historicalSuccessRate.length ≥ 100 then data2.historicalSuccessRate.tail
    else data2.historicalSuccessRate
  { data2 with historicalSuccessRate := window ++ [if isCorrect then 1 else 0] }

/-- The history window of one node after a sequence of recorded outcomes,
starting from no record (empty outcome list leaves no record, read as the
empty window). -/
def windowAfter (now : ℚ) (outcomes : List Bool) : List ℚ :=
  (outcomes.foldl (fun st b => some (updateTestResult now st b))
    (none : Option MemoryStrengthData)).elim [] MemoryStrengthData.historicalSuccessRate

/-- The backtick character (used by the fenced-code-block pattern). -/
def tick : Char := Char.ofNat 96

/-- JS \s (the whitespace class used by the regexes of calculateComplexity
and by String.prototype.trim): ASCII whitespace, NBSP, the ideographic space
U+3000 and the BOM.  The less common Unicode space separators are omitted;
none of the properties below are evaluated on them. -/
def jsWhitespace (c : Char) : Bool :=
  c == ' ' || c == '\t' || c == '\n' || c == '\r' ||
  c == Char.ofNat 11 || c == Char.ofNat 12 ||
  c == Char.ofNat 160 || c == Char.ofNat 0x3000 || c == Char.ofNat 0xfeff

/-- Scan for the first fenced-code delimiter (three backticks): returns the
characters before it and the characters after it. -/
def findFence : List Char → Option (List Char × List Char)
  | a :: b :: c :: rest =>
    if a = tick ∧ b = tick ∧ c = tick then some ([], rest)
    else
      match findFence (b :: c :: rest) with
      | some (pre, post) => some (a :: pre, post)
      | none => none
  | _ => none

/-- Match of /```[\s\S]*?```/ starting at the current position: three
backticks, then the lazily-shortest run of any characters up to the next
three backticks.  Returns the rest after the match. -/
def codeBlockMatchAt : List Char → Option (List Char)
  | a :: b :: c :: rest =>
    if a = tick ∧ b = tick ∧ c = tick then
      match findFence rest with
      | some (_, post) => some post
      | none => none
    else none
  | _ => none

/-- Lazy scan of `.*?\]\(`: consume non-newline characters up to the first
"](", returning the rest after it. -/
def scanToBracketParen : List Char → Option (List Char)
  | [] => none
  | c :: rest =>
    if c = '\n' then none
    else if c = ']' ∧ rest.head? = some '(' then some rest.tail
    else scanToBracketParen rest

/-- Lazy scan of `.*?\)`: consume non-newline characters up to the first
")", returning the rest after it. -/
def scanToCloseParen : List Char → Option (List Char)
  | [] => none
  | c :: rest =>
    if c = '\n' then none
    else if c = ')' then some rest
    else scanToCloseParen rest

/-- Match of /!\[.*?\]\(.*?\)/ starting at the current position. -/
def imageMatchAt : List Char → Option (List Char)
  | '!' :: '[' :: rest => (scanToBracketParen rest).bind scanToCloseParen
  | _ => none

/-- Match of /\[.*?\]\(.*?\)/ starting at the current position. -/
def linkMatchAt : List Char → Option (List Char)
  | '[' :: rest => (scanToBracketParen rest).bind scanToCloseParen
  | _ => none

/-- Scan of `[^>]*>`: consume characters up to the first ">", returning the
rest after it. -/
def scanToGt : List Char → Option (List Char)
  | [] => none
  | c :: rest => if c = '>' then some rest else scanToGt rest

/-- Match of /<[^>]*>/ starting at the current position. -/
def htmlMatchAt : List Char → Option (List Char)
  | '<' :: rest => scanToGt rest
  | _ => none

/-- Match of /#+\s+/ starting at the current position: a run of #'s followed
by at least one whitespace character (backtracking into the # run never
helps, since '#' is not whitespace). -/
def headingMatchAt : List Char → Option (List Char)
  | '#' :: rest =>
    let afterHashes := rest.dropWhile (fun c => c == '#')
    match afterHashes with
    | c :: _ =>
      if jsWhitespace c then some (afterHashes.dropWhile jsWhitespace) else none
    | [] => none
  | _ => none

/-- Match of /[-*]\s+/ starting at the current position. -/
def listMatchAt : List Char → Option (List Char)
  | c :: rest =>
    if c = '-' ∨ c = '*' then
      match rest with
      | d :: _ => if jsWhitespace d then some (rest.dropWhile jsWhitespace) else none
      | [] => none
    else none
  | [] => none

/-- Leftmost match of a pattern: the characters before the match and the
characters after it. -/
def firstMatch (matchAt : List Char → Option (List Char)) :
    List Char → Option (List Char × List Char)
  | [] => none
  | c :: rest =>
    match matchAt (c :: rest) with
    | some post => some ([], post)
    | none =>
      match firstMatch matchAt rest with
      | some (pre, post) => some (c :: pre, post)
      | none => none

/-- JS String.prototype.replace with a /g pattern and empty replacement:
delete every (leftmost, non-overlapping) match.  Every pattern used here
consumes at least one character, so fuel = length + 1 never runs out. -/
def replaceAll (fuel : Nat) (matchAt : List Char → Option (List Char))
    (cs : List Char) : List Char :=
  match fuel with
  | 0 => cs
  | fuel + 1 =>
    match firstMatch matchAt cs with
    | none => cs
    | some (pre, post) => pre ++ replaceAll fuel matchAt post

/-- The Markdown-stripping pipeline of calculateComplexity (part_001 lines
161-166): remove code blocks, images, links, HTML tags, heading markers and
list bullets, in that order. -/
def plainTextOf (content : String) : List Char :=
  let cs := content.data
  let n := cs.length + 1
  let step1 := replaceAll n codeBlockMatchAt cs
  let step2 := replaceAll n imageMatchAt step1
  let step3 := replaceAll n linkMatchAt step2
  let step4 := replaceAll n htmlMatchAt step3
  let step5 := replaceAll n headingMatchAt step4
  replaceAll n listMatchAt step5

/-- A CJK character of the range the source uses, [一-龥]. -/
def isCJK (c : Char) : Bool := 0x4e00 ≤ c.toNat && c.toNat ≤ 0x9fa5

/-- Sentence counting (part_001 lines 169-170): split on any of the given
separator characters and keep the pieces with a non-whitespace character
(JS filters by s.trim(); splitting on single separators then filtering
agrees with splitting on separator runs). -/
def countSentencePieces (seps : List Char) (cs : List Char) : Nat :=
  ((cs.splitOnP (fun c => seps.contains c)).filter
    (fun p => p.any (fun c => !jsWhitespace c))).length

/-- A JS word character, \w = [A-Za-z0-9_]. -/
def isWordChar (c : Char) : Bool := c.isAlpha || c.isDigit || c == '_'

/-- Driver of String.prototype.split on /\b|\s+/ as ES2015 specifies it:
walk the string keeping the current piece; a word boundary at a position
after the piece's start cuts there (the boundary match is zero-width, so the
following character is then consumed unconditionally); otherwise a run of
whitespace is one separator match (possibly cutting an empty piece).  `prev`
is the character before the current position.  Each step consumes at least
one character, so fuel = length + 1 never runs out. -/
def splitBSAux : Nat → Option Char → List Char → List Char → List (List Char)
  | _, _, seg, [] => [seg.reverse]
  | 0, _, seg, cs => [seg.reverse ++ cs]
  | fuel + 1, prev, seg, c :: rest =>
    let wb := (prev.elim false isWordChar) != isWordChar c
    if wb then
      if seg.isEmpty then splitBSAux fuel (some c) [c] rest
      else seg.reverse :: splitBSAux fuel (some c) [c] rest
    else if jsWhitespace c then
      let run := (c :: rest).takeWhile jsWhitespace
      let rest2 := (c :: rest).dropWhile jsWhitespace
      seg.reverse :: splitBSAux fuel (some (run.getLastD c)) [] rest2
    else splitBSAux fuel (some c) (c :: seg) rest

/-- String.prototype.split on /\b|\s+/ (part_001 line 181). -/
def splitBS (cs : List Char) : List (List Char) :=
  splitBSAux (cs.length + 1) none [] cs

/-- A vowel of the syllable heuristic (part_001 line 184), y included. -/
def isVowel (c : Char) : Bool :=
  c == 'a' || c == 'e' || c == 'i' || c == 'o' || c == 'u' || c == 'y'

/-- The vowel-group counter of part_001 lines 183-194: a vowel starts a group
only when the previous character did not just start one (a second consecutive
vowel resets the flag, so "aaa" counts two groups — kept as the source has
it). -/
def vowelGroups : Bool → List Char → Nat
  | _, [] => 0
  | prevVowel, c :: rest =>
    if isVowel c && !prevVowel then 1 + vowelGroups true rest
    else vowelGroups false rest

/-- Syllables of one token (part_001 lines 182-196): vowel groups, minus one
for a silent trailing "e" when more than one group, floor one. -/
def syllableCount (w : List Char) : Nat :=
  let count := vowelGroups false w
  let count2 := if w.getLast? = some 'e' ∧ count > 1 then count - 1 else count
  max count2 1

/-- The Flesch-Kincaid grade computed by calculateComplexity (part_001 lines
168-200), an exact rational: counts of sentences, words and syllables over
the stripped text, then 0.39*(words/sentences) + 11.8*(syllables/words)
- 15.59. -/
def fkGradeOf (content : String) : ℚ :=
  let cs := plainTextOf content
  let chineseSentences := countSentencePieces ['。', '！', '？'] cs
  let englishSentences := countSentencePieces ['.', '!', '?'] cs
  let sentences : ℚ := (max (chineseSentences + englishSentences) 1 : ℕ)
  let chineseWords := (cs.filter isCJK).length
  let englishWords := ((cs.splitOnP jsWhitespace).filter (fun w => !w.isEmpty)).length
  let totalWords : ℚ := (max (chineseWords + englishWords) 1 : ℕ)
  let englishContent := (cs.filter (fun c => !isCJK c)).map Char.toLower
  let tokens := (splitBS englishContent).filter (fun w => !w.isEmpty)
  let syllables : ℚ := (3/2) * (chineseWords : ℚ) + ((tokens.map syllableCount).sum : ℕ)
  (39/100) * (totalWords / sentences) + (118/10) * (syllables / totalWords) - 1559/100

/-- DataManager.calculateComplexity (part_001 lines 157-211).  Empty or
whitespace-only text returns 0.1 at once.  When the grade satisfies
fkGrade + 1 < 0, JS computes Math.log of a negative number, which is NaN and
propagates to the returned value: modelled as `none`.  When fkGrade + 1 = 0
the logarithm is -Infinity, the sigmoid evaluates to 0 and the result is
exactly the floor 0.1.  Otherwise the log-sigmoid normalization runs over
the reals and the result is rounded to two decimals, capped at 1. -/
noncomputable def calculateComplexity (content : String) : Option ℝ :=
  if content.data.all jsWhitespace then some (1/10)
  else
    let fkGrade : ℚ := fkGradeOf content
    if fkGrade + 1 < 0 then none
    else if fkGrade + 1 = 0 then some (1/10)
    else
      let normalized : ℝ :=
        1 / (1 + Real.exp (-(1/2) * (Real.log ((fkGrade : ℝ) + 1) - 5/2)))
      let minVal : ℝ := 1/10
      let adjusted := minVal + (1 - minVal) * normalized
      some (round2 (min adjusted 1))

/-! Helper lemmas. -/

/-- Hyperbolic tangent written over the exponential, for monotonicity and
bound arguments. -/
theorem tanh_eq_one_sub_two_div (x : ℝ) :
    Real.tanh x = 1 - 2 / (Real.exp (2 * x) + 1) := by
  have hx : (0:ℝ) < Real.exp x := Real.exp_pos x
  have h2 : Real.exp (2 * x) = Real.exp x * Real.exp x := by
    rw [two_mul, Real.exp_add]
  rw [Real.tanh_eq_sinh_div_cosh, Real.sinh_eq, Real.cosh_eq, Real.exp_neg, h2]
  have hne : Real.exp x ≠ 0 := ne_of_gt hx
  field_simp
  ring

/-- Hyperbolic tangent is monotone. -/
theorem tanh_le_tanh_of_le {x y : ℝ} (h : x ≤ y) : Real.tanh x ≤ Real.tanh y := by
  rw [tanh_eq_one_sub_two_div, tanh_eq_one_sub_two_div]
  have h1 : Real.exp (2 * x) ≤ Real.exp (2 * y) := Real.exp_le_exp.mpr (by linarith)
  have h2 : (0:ℝ) < Real.exp (2 * x) + 1 := by positivity
  have h3 : (0:ℝ) < Real.exp (2 * y) + 1 := by positivity
  have h4 : 2 / (Real.exp (2 * y) + 1) ≤ 2 / (Real.exp (2 * x) + 1) := by
    apply div_le_div_of_nonneg_left (by norm_num) h2 (by linarith)
  linarith

/-- Hyperbolic tangent stays above -1. -/
theorem neg_one_lt_tanh (x : ℝ) : -1 < Real.tanh x := by
  rw [tanh_eq_one_sub_two_div]
  have h2 : (0:ℝ) < Real.exp (2 * x) + 1 := by positivity
  have h3 : 2 / (Real.exp (2 * x) + 1) < 2 := by
    rw [div_lt_iff₀ h2]
    nlinarith [Real.exp_pos (2 * x)]
  linarith

/-- Rounding to two decimals is monotone. -/
theorem round2_mono {x y : ℝ} (h : x ≤ y) : round2 x ≤ round2 y := by
  unfold round2
  have hr : round ((100:ℝ) * x) ≤ round ((100:ℝ) * y) := by
    rw [round_eq, round_eq]
    exact Int.floor_le_floor (by linarith)
  have hc : (((round ((100:ℝ) * x)) : ℤ) : ℝ) ≤ ((round ((100:ℝ) * y) : ℤ) : ℝ) :=
    Int.cast_le.mpr hr
  linarith

/-- Rounding to two decimals is idempotent. -/
theorem round2_round2 (x : ℝ) : round2 (round2 x) = round2 x := by
  unfold round2
  have h : (100:ℝ) * (((round ((100:ℝ) * x) : ℤ) : ℝ) / 100) =
      ((round ((100:ℝ) * x) : ℤ) : ℝ) := by
    field_simp
  rw [h, round_intCast]

/-- Rounding to two decimals preserves nonnegativity. -/
theorem round2_nonneg {x : ℝ} (h : 0 ≤ x) : 0 ≤ round2 x := by
  have h0 : round2 0 ≤ round2 x := round2_mono h
  have : round2 (0:ℝ) = 0 := by
    unfold round2
    norm_num
  linarith

/-- The base-2 logarithm of 4. -/
theorem logb_two_four : Real.logb 2 4 = 2 := by
  rw [show (4:ℝ) = 2 ^ (2:ℕ) by norm_num, Real.logb_pow,
    Real.logb_self_eq_one (by norm_num)]
  norm_num

/-- Lower bound of the recomputed easiness factor. -/
theorem memoryEF_lb (history : List ℚ) : 13/10 ≤ memoryEF history := by
  simp only [memoryEF]
  exact le_min (by norm_num) (le_max_left _ _)

/-- Upper bound of the recomputed easiness factor. -/
theorem memoryEF_ub (history : List ℚ) : memoryEF history ≤ 5/2 := by
  simp only [memoryEF]
  exact min_le_left _ _

/-! Claim theorems. -/

/-- C5: for every content of the historicalSuccessRate window (including the
empty history, whose default success rate is 0.7), the easiness factor EF
recomputed by calculateMemoryStrength lies in the interval from 1.3 to
2.5. -/
theorem calculateMemoryStrength_EF_bounds (history : List ℚ) :
    13/10 ≤ memoryEF history ∧ memoryEF history ≤ 5/2 :=
  ⟨memoryEF_lb history, memoryEF_ub history⟩

/-- C6: for every per-node memory state, calculateMemoryStrength returns at
least 1, so branch (a) of the due-file filter in getDueFiles (strength below
0.8 with fewer than 3 consecutive successes) is never satisfied. -/
theorem calculateMemoryStrength_ge_one (m : MemoryStrengthData) :
    1 ≤ calculateMemoryStrength m ∧ (dueConditionA m ↔ False) := by
  have hEF : (13/10 : ℝ) ≤ ((memoryEF m.historicalSuccessRate : ℚ) : ℝ) := by
    have h2 : ((13/10 : ℚ) : ℝ) ≤ ((memoryEF m.historicalSuccessRate : ℚ) : ℝ) :=
      Rat.cast_le.mpr (memoryEF_lb m.historicalSuccessRate)
    push_cast at h2
    linarith
  have h1 : 1 ≤ calculateMemoryStrength m := by
    simp only [calculateMemoryStrength]
    split
    · have hlog : 0 ≤ Real.log ((m.consecutiveSuccess : ℝ) + 1) := by
        apply Real.log_nonneg
        have : (0:ℝ) ≤ (m.consecutiveSuccess : ℝ) := Nat.cast_nonneg _
        linarith
      nlinarith [mul_nonneg (le_trans (by norm_num : (0:ℝ) ≤ 13/10) hEF) hlog]
    · exact le_max_left 1 _
  refine ⟨h1, iff_false_intro ?_⟩
  intro hdue
  simp only [dueConditionA] at hdue
  linarith [hdue.1]

/-- C7 counterexample: the scheduler-facing review interval does not grow
with the current weight: raising the weight from 0 to 0.5 shrinks the
interval from 10 to 5 days. -/
theorem calculateReviewInterval_decreasing_example :
    (0:ℚ) < 1/2 ∧
    calculateReviewInterval 30 (1/2) < calculateReviewInterval 30 0 := by
  constructor
  · norm_num
  · have h2 : calculateReviewInterval 30 (1/2) = 5 := by
      simp only [calculateReviewInterval]
      norm_num [round_eq, min_def, max_def]
    have h0 : calculateReviewInterval 30 0 = 10 := by
      simp only [calculateReviewInterval]
      norm_num [round_eq, min_def, max_def]
    rw [h2, h0]
    norm_num

/-- C7 amended: the review interval equals round(10 * (1 - weight)) clamped
into the interval from 1 to maxReviewInterval, and it is monotonically
non-INCREASING as the node's current weight grows. -/
theorem calculateReviewInterval_antitone (maxRI w1 w2 : ℚ) (hmax : 1 ≤ maxRI)
    (h : w1 ≤ w2) :
    1 ≤ calculateReviewInterval maxRI w2 ∧
    calculateReviewInterval maxRI w2 ≤ maxRI ∧
    calculateReviewInterval maxRI w2 ≤ calculateReviewInterval maxRI w1 := by
  simp only [calculateReviewInterval]
  refine ⟨le_min hmax (le_max_left _ _), min_le_left _ _, ?_⟩
  have hr : round ((10:ℚ) * (1 - w2)) ≤ round ((10:ℚ) * (1 - w1)) := by
    rw [round_eq, round_eq]
    exact Int.floor_le_floor (by linarith)
  have hc : ((round ((10:ℚ) * (1 - w2)) : ℤ) : ℚ) ≤
      ((round ((10:ℚ) * (1 - w1)) : ℤ) : ℚ) := Int.cast_le.mpr hr
  exact min_le_min le_rfl (max_le_max le_rfl hc)

/-- C7 witness: the amended statement at maxReviewInterval 30 and weights 0
and 0.5. -/
theorem calculateReviewInterval_antitone_witness :
    1 ≤ calculateReviewInterval 30 (1/2) ∧
    calculateReviewInterval 30 (1/2) ≤ 30 ∧
    calculateReviewInterval 30 (1/2) ≤ calculateReviewInterval 30 0 :=
  calculateReviewInterval_antitone 30 0 (1/2) (by norm_num) (by norm_num)

/-- C10: computing engagement for a node with no tracked interaction session
returns 0 without an error and leaves the whole DataManager state
unchanged. -/
theorem calculateEngagement_untracked (st : DataManagerState) (filePath : String)
    (h : List.lookup filePath st.interactionDurations = none) :
    calculateEngagement st filePath = Except.ok (0, st) := by
  simp only [calculateEngagement, h]

/-- C10 witness: the empty DataManager state tracks no session for
"note.md". -/
theorem calculateEngagement_untracked_witness :
    calculateEngagement ⟨[], []⟩ "note.md" = Except.ok (0, ⟨[], []⟩) :=
  calculateEngagement_untracked ⟨[], []⟩ "note.md" rfl

/-- One updateTestResult step keeps the window within 100 entries (reading an
absent record as window length 0). -/
theorem updateTestResult_length_le (now : ℚ) (m : Option MemoryStrengthData)
    (b : Bool) (h : (m.elim 0 (fun d => d.historicalSuccessRate.length)) ≤ 100) :
    (updateTestResult now m b).historicalSuccessRate.length ≤ 100 := by
  cases m with
  | none =>
    cases b <;> simp [updateTestResult, initMemoryData]
  | some d =>
    simp only [Option.elim_some] at h
    by_cases hlen : d.historicalSuccessRate.length ≥ 100
    · have h100 : d.historicalSuccessRate.length = 100 := le_antisymm h hlen
      cases b <;>
        simp [updateTestResult, hlen, List.length_tail, h100]
    · have h99 : d.historicalSuccessRate.length ≤ 99 := by omega
      cases b <;>
        simp [updateTestResult, hlen, List.length_append] <;> omega

/-- Folding any outcome sequence through updateTestResult keeps the window
within 100 entries. -/
theorem foldl_window_le (now : ℚ) (outcomes : List Bool) :
    ∀ m : Option MemoryStrengthData,
      (m.elim 0 (fun d => d.historicalSuccessRate.length)) ≤ 100 →
      ((outcomes.foldl (fun st b => some (updateTestResult now st b)) m).elim 0
        (fun d => d.historicalSuccessRate.length)) ≤ 100 := by
  induction outcomes with
  | nil =>
    intro m h
    simpa using h
  | cons c rest ih =>
    intro m h
    simp only [List.foldl_cons]
    exact ih (some (updateTestResult now m c))
      (by simpa using updateTestResult_length_le now m c h)

/-- C9: the historicalSuccessRate window never exceeds 100 entries after any
sequence of recorded outcomes, and updateTestResult on a window already
holding 100 entries first evicts the oldest entry and then appends the new
outcome. -/
theorem updateTestResult_window_bound (now : ℚ) (outcomes : List Bool) (b : Bool) :
    (windowAfter now outcomes).length ≤ 100 ∧
    ∀ d : MemoryStrengthData, d.historicalSuccessRate.length = 100 →
      (updateTestResult now (some d) b).historicalSuccessRate =
        d.historicalSuccessRate.tail ++ [if b then (1:ℚ) else 0] := by
  constructor
  · have h := foldl_window_le now outcomes none (by simp)
    unfold windowAfter
    cases hf : outcomes.foldl (fun st c => some (updateTestResult now st c))
        (none : Option MemoryStrengthData) with
    | none => simp
    | some d =>
      rw [hf] at h
      simpa using h
  · intro d hd
    have hge : d.historicalSuccessRate.length ≥ 100 := le_of_eq hd.symm
    cases b <;> simp [updateTestResult, hge]

/-- C9 witness: one recorded outcome keeps the window small, and recording a
failure on a full window of 100 successes drops the oldest entry and appends
a 0. -/
theorem updateTestResult_window_bound_witness :
    (windowAfter 0 [true]).length ≤ 100 ∧
    (updateTestResult 0 (some ⟨5/2, 0, 0, false, List.replicate 100 1, 0⟩)
        false).historicalSuccessRate =
      (List.replicate 100 (1:ℚ)).tail ++ [0] :=
  ⟨(updateTestResult_window_bound 0 [true] false).1,
   (updateTestResult_window_bound 0 [true] false).2
     ⟨5/2, 0, 0, false, List.replicate 100 1, 0⟩ (by simp)⟩

/-- calculateCurrentWeight when no time has elapsed: the square-root decay
factor is exp 0 = 1 whatever the seasonal lambda is. -/
theorem calculateCurrentWeight_same_day (s : MyPluginSettings)
    (dayOfYear now : ℝ) (e : WeightEntry) (h : e.lastUpdated = now) :
    calculateCurrentWeight s dayOfYear now e =
      round2 (s.alpha * e.initialWeight +
        s.betaCoefficient * (1 + 0.5 * Real.tanh (((e.interactionCount : ℝ) - 3) / 2)) *
          (1 - 1 / (1 + Real.logb 2 ((e.interactionCount : ℝ) + 1)))) := by
  simp only [calculateCurrentWeight, h]
  rw [sub_self, zero_div, Real.sqrt_zero, mul_zero, Real.exp_zero, mul_one]

/-- calculateCurrentWeight always returns a value already rounded to two
decimals. -/
theorem round2_calculateCurrentWeight (s : MyPluginSettings)
    (dayOfYear now : ℝ) (e : WeightEntry) :
    round2 (calculateCurrentWeight s dayOfYear now e) =
      calculateCurrentWeight s dayOfYear now e := by
  simp only [calculateCurrentWeight]
  exact round2_round2 _

/-- Rounding 17/15 to two decimals gives 1.13. -/
theorem round2_17_15 : round2 (17/15 : ℝ) = 113/100 := by
  rw [round2]
  rw [show (100:ℝ) * (17/15) = ((340/3 : ℚ) : ℝ) by push_cast; ring]
  rw [Rat.round_cast]
  norm_num [round_eq]

/-- C1 counterexample: from a stored base weight of 1 (inside the claimed
invariant interval) with 3 recorded interactions, the daily-decay batch run
at the same instant as the last update stores the unclamped value 1.13: the
base weight leaves the interval from 0 to 1, so no clamping re-establishes
the invariant. -/
theorem applyDailyDecay_exceeds_one :
    (applyDailyDecayEntry DEFAULT_SETTINGS 0 0 ⟨1, 0, 3, none⟩).initialWeight = 113/100 ∧
    1 < (applyDailyDecayEntry DEFAULT_SETTINGS 0 0 ⟨1, 0, 3, none⟩).initialWeight := by
  have key : (applyDailyDecayEntry DEFAULT_SETTINGS 0 0 ⟨1, 0, 3, none⟩).initialWeight =
      113/100 := by
    simp only [applyDailyDecayEntry]
    rw [calculateCurrentWeight_same_day DEFAULT_SETTINGS 0 0 ⟨1, 0, 3, none⟩ rfl]
    simp only [DEFAULT_SETTINGS]
    norm_num
    rw [logb_two_four]
    convert round2_17_15 using 2
    norm_num
  exact ⟨key, by rw [key]; norm_num⟩

/-- C1 amended: applyDailyDecay stores the unclamped calculateCurrentWeight
value: for nonnegative alpha, betaCoefficient and stored base weight (and a
clock that has not gone backwards) the new base weight is nonnegative, but
it need not stay at most 1 and no clamping is applied. -/
theorem applyDailyDecay_base_nonneg (s : MyPluginSettings) (dayOfYear now : ℝ)
    (e : WeightEntry) (ha : 0 ≤ s.alpha) (hb : 0 ≤ s.betaCoefficient)
    (hw : 0 ≤ e.initialWeight) (ht : e.lastUpdated ≤ now) :
    0 ≤ (applyDailyDecayEntry s dayOfYear now e).initialWeight := by
  simp only [applyDailyDecayEntry, calculateCurrentWeight]
  apply round2_nonneg
  have htime : 0 ≤ s.alpha * e.initialWeight *
      Real.exp (-(s.decayLambda + 0.01 * Real.sin (2 * Real.pi * dayOfYear / 365)) *
        Real.sqrt ((now - e.lastUpdated) / (1000 * 60 * 60 * 24))) :=
    mul_nonneg (mul_nonneg ha hw) (Real.exp_pos _).le
  have htanh : (0:ℝ) ≤ 1 + 0.5 * Real.tanh (((e.interactionCount : ℝ) - 3) / 2) := by
    have := neg_one_lt_tanh (((e.interactionCount : ℝ) - 3) / 2)
    linarith
  have hlogb : (0:ℝ) ≤ Real.logb 2 ((e.interactionCount : ℝ) + 1) := by
    apply Real.logb_nonneg (by norm_num)
    have : (0:ℝ) ≤ (e.interactionCount : ℝ) := Nat.cast_nonneg _
    linarith
  have hfrac : (0:ℝ) ≤ 1 - 1 / (1 + Real.logb 2 ((e.interactionCount : ℝ) + 1)) := by
    have hpos : (0:ℝ) < 1 + Real.logb 2 ((e.interactionCount : ℝ) + 1) := by linarith
    have h1 : 1 / (1 + Real.logb 2 ((e.interactionCount : ℝ) + 1)) ≤ 1 := by
      rw [div_le_one hpos]
      linarith
    linarith
  have hboost : (0:ℝ) ≤ s.betaCoefficient *
      (1 + 0.5 * Real.tanh (((e.interactionCount : ℝ) - 3) / 2)) *
      (1 - 1 / (1 + Real.logb 2 ((e.interactionCount : ℝ) + 1))) :=
    mul_nonneg (mul_nonneg hb htanh) hfrac
  linarith

/-- C1 witness of the amended statement: the default settings and a fresh
entry with base 0.5 and two interactions, one day after creation. -/
theorem applyDailyDecay_base_nonneg_witness :
    0 ≤ (applyDailyDecayEntry DEFAULT_SETTINGS 0 86400000 ⟨1/2, 0, 2, none⟩).initialWeight :=
  applyDailyDecay_base_nonneg DEFAULT_SETTINGS 0 86400000 ⟨1/2, 0, 2, none⟩
    (by norm_num [DEFAULT_SETTINGS]) (by norm_num [DEFAULT_SETTINGS])
    (by norm_num) (by norm_num)

/-- Re-running the daily decay on one entry at the same instant changes
nothing: no time has elapsed, the interaction count is already 0 (so the
boost term vanishes), and rounding is idempotent. -/
theorem applyDailyDecayEntry_idem (s : MyPluginSettings) (dayOfYear now : ℝ)
    (hα : s.alpha = 1) (e : WeightEntry) :
    applyDailyDecayEntry s dayOfYear now (applyDailyDecayEntry s dayOfYear now e) =
      applyDailyDecayEntry s dayOfYear now e := by
  have h1 : calculateCurrentWeight s dayOfYear now
      (⟨calculateCurrentWeight s dayOfYear now e, now, 0, e.previousEngagement⟩ : WeightEntry) =
      calculateCurrentWeight s dayOfYear now e := by
    rw [calculateCurrentWeight_same_day s dayOfYear now _ rfl]
    simp only [Nat.cast_zero, hα, one_mul, zero_add, Real.logb_one]
    norm_num
    exact round2_calculateCurrentWeight s dayOfYear now e
  simp only [applyDailyDecayEntry]
  congr 1

/-- C8: with the default alpha = 1, running applyDailyDecay a second time at
the same timestamp as the first run leaves every node's base weight,
interactionCount and lastUpdated (and the rest of the entry) unchanged. -/
theorem applyDailyDecay_idempotent (s : MyPluginSettings) (dayOfYear now : ℝ)
    (hα : s.alpha = 1) (data : List (String × WeightEntry)) :
    applyDailyDecay s dayOfYear now (applyDailyDecay s dayOfYear now data) =
      applyDailyDecay s dayOfYear now data := by
  simp only [applyDailyDecay, List.map_map]
  apply List.map_congr_left
  intro p _
  simp only [Function.comp_apply]
  exact congrArg (Prod.mk p.1) (applyDailyDecayEntry_idem s dayOfYear now hα p.2)

/-- C8 witness: the default settings on a one-entry store. -/
theorem applyDailyDecay_idempotent_witness :
    applyDailyDecay DEFAULT_SETTINGS 0 0
        (applyDailyDecay DEFAULT_SETTINGS 0 0 [("note.md", ⟨1/2, 0, 4, none⟩)]) =
      applyDailyDecay DEFAULT_SETTINGS 0 0 [("note.md", ⟨1/2, 0, 4, none⟩)] :=
  applyDailyDecay_idempotent DEFAULT_SETTINGS 0 0 rfl [("note.md", ⟨1/2, 0, 4, none⟩)]

/-- With no out-links anywhere, every contribution loop is empty, so newRank
stays the empty map. -/
theorem distributeContributions_no_links (g : List (String × List String))
    (hempty : ∀ p ∈ g, p.2 = []) (pr : List (String × ℚ)) :
    distributeContributions g pr = [] := by
  simp only [distributeContributions]
  have hgo : ∀ (h : List (String × List String)), (∀ p ∈ h, p.2 = []) →
      ∀ acc : List (String × ℚ),
      h.foldl (fun newRank p =>
        let contribution : ℚ :=
          if p.2.length > 0 then
            dampingFactor * (((List.lookup p.1 pr).getD 0) / (p.2.length : ℚ))
          else 0
        p.2.foldl
          (fun nr link => mapSet nr link (((List.lookup link nr).getD 0) + contribution))
          newRank) acc = acc := by
    intro h hh
    induction h with
    | nil => intro acc; simp
    | cons p rest ih =>
      intro acc
      have hp : p.2 = [] := hh p (List.mem_cons_self p rest)
      simp only [List.foldl_cons, hp, List.length_nil, List.foldl_nil]
      exact ih (fun q hq => hh q (List.mem_cons_of_mem p hq)) acc
  exact hgo g hempty []

/-- With no out-links anywhere, one PageRank iteration changes nothing: the
update loop runs over the empty newRank, so not even the random-jump term is
applied. -/
theorem centralityIteration_no_links (g : List (String × List String))
    (hempty : ∀ p ∈ g, p.2 = []) (pr : List (String × ℚ)) :
    centralityIteration g pr = pr := by
  simp only [centralityIteration]
  rw [distributeContributions_no_links g hempty pr]
  simp

/-- Looking a present key up in a constant-valued map built over the graph's
keys. -/
theorem lookup_map_const (v : ℚ) (g : List (String × List String)) (k : String)
    (hk : k ∈ g.map Prod.fst) :
    List.lookup k (g.map (fun p => (p.1, v))) = some v := by
  induction g with
  | nil => simp at hk
  | cons p rest ih =>
    by_cases hkp : k = p.1
    · simp [List.lookup, hkp]
    · have hk2 : k ∈ rest.map Prod.fst := by
        simp only [List.map_cons, List.mem_cons] at hk
        tauto
      simp only [List.map_cons, List.lookup, ih hk2]
      split <;> rfl

/-- Core of the zero-edge behavior: every node of an edge-free graph keeps
exactly its initialization rank 1/size after the ten iterations. -/
theorem calculateCentrality_all_empty (g : List (String × List String))
    (k : String) (hempty : ∀ p ∈ g, p.2 = []) (hk : k ∈ g.map Prod.fst) :
    calculateCentrality g k = 1 / (g.length : ℚ) := by
  simp only [calculateCentrality]
  rw [Function.iterate_fixed (centralityIteration_no_links g hempty
    (buildInitialPagerank g)) 10]
  have hb : buildInitialPagerank g = g.map (fun p => (p.1, 1 / (g.length : ℚ))) := rfl
  rw [hb, lookup_map_const (1 / (g.length : ℚ)) g k hk]
  rfl

/-- C3 counterexample: on the one-node edge-free graph, calculateCentrality
returns the initialization value 1, not the random-jump floor
(1 - 0.85)/1 = 0.15. -/
theorem calculateCentrality_zero_edges_counterexample :
    calculateCentrality [("a", [])] "a" = 1 ∧ (1 - dampingFactor) / (1:ℚ) < 1 := by
  constructor
  · have h1 := calculateCentrality_all_empty [("a", [])] "a" (by simp) (by simp)
    simpa using h1
  · norm_num [dampingFactor]

/-- C3 amended: over a non-empty link graph with distinct keys and no
outbound links anywhere, every node's rank after the iterations is its
initialization value 1/size: the contribution map stays empty, so the update
(random-jump term included) never runs, and the rank never converges to
(1 - 0.85)/size. -/
theorem calculateCentrality_zero_edges (g : List (String × List String))
    (k : String) (hnd : (g.map Prod.fst).Nodup)
    (hempty : ∀ p ∈ g, p.2 = []) (hk : k ∈ g.map Prod.fst) :
    calculateCentrality g k = 1 / (g.length : ℚ) :=
  calculateCentrality_all_empty g k hempty hk

/-- C3 witness: the two-node edge-free graph gives each node rank 1/2. -/
theorem calculateCentrality_zero_edges_witness :
    calculateCentrality [("a", []), ("b", [])] "b" =
      1 / (([("a", []), ("b", [])] : List (String × List String)).length : ℚ) :=
  calculateCentrality_zero_edges [("a", []), ("b", [])] "b"
    (by simp) (by simp) (by simp)

/-- C2: with the default tunables (decayLambda 0.05, alpha 1,
betaCoefficient 0.2) and a nonnegative stored base weight,
calculateCurrentWeight evaluated at one instant is monotonically
non-increasing as the elapsed days since lastUpdated grow (the stored
lastUpdated moves further into the past) with the interaction count fixed,
and monotonically non-decreasing in the interaction count with the elapsed
days fixed. -/
theorem calculateCurrentWeight_monotone (dayOfYear now base lu1 lu2 : ℝ)
    (N N1 N2 : ℕ) (hbase : 0 ≤ base) (h21 : lu2 ≤ lu1) (h1n : lu1 ≤ now)
    (hN : N1 ≤ N2) :
    calculateCurrentWeight DEFAULT_SETTINGS dayOfYear now ⟨base, lu2, N, none⟩ ≤
      calculateCurrentWeight DEFAULT_SETTINGS dayOfYear now ⟨base, lu1, N, none⟩ ∧
    calculateCurrentWeight DEFAULT_SETTINGS dayOfYear now ⟨base, lu1, N1, none⟩ ≤
      calculateCurrentWeight DEFAULT_SETTINGS dayOfYear now ⟨base, lu1, N2, none⟩ := by
  have hlam : (0:ℝ) < 1/20 + 0.01 * Real.sin (2 * Real.pi * dayOfYear / 365) := by
    have hs := Real.neg_one_le_sin (2 * Real.pi * dayOfYear / 365)
    nlinarith
  simp only [calculateCurrentWeight, DEFAULT_SETTINGS]
  constructor
  · apply round2_mono
    apply add_le_add_right
    apply mul_le_mul_of_nonneg_left ?_ (by linarith : (0:ℝ) ≤ 1 * base)
    rw [Real.exp_le_exp]
    have hsqrt : Real.sqrt ((now - lu1) / (1000 * 60 * 60 * 24)) ≤
        Real.sqrt ((now - lu2) / (1000 * 60 * 60 * 24)) := by
      apply Real.sqrt_le_sqrt
      linarith
    nlinarith [mul_le_mul_of_nonneg_left hsqrt hlam.le]
  · apply round2_mono
    apply add_le_add_left
    have hcast : (N1:ℝ) ≤ (N2:ℝ) := Nat.cast_le.mpr hN
    have htanh : Real.tanh (((N1:ℝ) - 3) / 2) ≤ Real.tanh (((N2:ℝ) - 3) / 2) :=
      tanh_le_tanh_of_le (by linarith)
    have htanh1 := neg_one_lt_tanh (((N1:ℝ) - 3) / 2)
    have htanh2 := neg_one_lt_tanh (((N2:ℝ) - 3) / 2)
    have hlog1 : (0:ℝ) ≤ Real.logb 2 ((N1:ℝ) + 1) := by
      apply Real.logb_nonneg (by norm_num)
      have : (0:ℝ) ≤ (N1:ℝ) := Nat.cast_nonneg _
      linarith
    have hlogm : Real.logb 2 ((N1:ℝ) + 1) ≤ Real.logb 2 ((N2:ℝ) + 1) := by
      apply Real.logb_le_logb_of_le (by norm_num)
      · have : (0:ℝ) ≤ (N1:ℝ) := Nat.cast_nonneg _
        linarith
      · linarith
    have hpos1 : (0:ℝ) < 1 + Real.logb 2 ((N1:ℝ) + 1) := by linarith
    have hfracm : 1 - 1 / (1 + Real.logb 2 ((N1:ℝ) + 1)) ≤
        1 - 1 / (1 + Real.logb 2 ((N2:ℝ) + 1)) := by
      have := one_div_le_one_div_of_le hpos1 (by linarith :
        1 + Real.logb 2 ((N1:ℝ) + 1) ≤ 1 + Real.logb 2 ((N2:ℝ) + 1))
      linarith
    have hfrac1 : (0:ℝ) ≤ 1 - 1 / (1 + Real.logb 2 ((N1:ℝ) + 1)) := by
      have h1 : 1 / (1 + Real.logb 2 ((N1:ℝ) + 1)) ≤ 1 := by
        rw [div_le_one hpos1]
        linarith
      linarith
    apply mul_le_mul
    · linarith
    · exact hfracm
    · exact hfrac1
    · linarith

/-- C2 witness: one day of elapsed time versus none, and five interactions
versus none, at base weight 0.5. -/
theorem calculateCurrentWeight_monotone_witness :
    (calculateCurrentWeight DEFAULT_SETTINGS 0 86400000 ⟨1/2, 0, 0, none⟩ ≤
      calculateCurrentWeight DEFAULT_SETTINGS 0 86400000 ⟨1/2, 86400000, 0, none⟩) ∧
    (calculateCurrentWeight DEFAULT_SETTINGS 0 86400000 ⟨1/2, 86400000, 0, none⟩ ≤
      calculateCurrentWeight DEFAULT_SETTINGS 0 86400000 ⟨1/2, 86400000, 5, none⟩) :=
  calculateCurrentWeight_monotone 0 86400000 (1/2) 86400000 0 0 0 5
    (by norm_num) (by norm_num) (by norm_num) (by norm_num)

/-- The Flesch-Kincaid grade of the single-letter text "a": two sentence
counts (one Chinese split piece plus one English split piece), one word, one
syllable, giving 0.39/2 + 11.8 - 15.59 = -3.595. -/
theorem fkGradeOf_single_letter : fkGradeOf "a" = -719/200 := by
  have hplain : plainTextOf "a" = ['a'] := by decide
  have hcs : countSentencePieces ['。', '！', '？'] ['a'] = 1 := by decide
  have hes : countSentencePieces ['.', '!', '?'] ['a'] = 1 := by decide
  have hcw : (['a'].filter isCJK).length = 0 := by decide
  have hew : (((['a'] : List Char).splitOnP jsWhitespace).filter
      (fun w => !w.isEmpty)).length = 1 := by decide
  have hec : ((['a'] : List Char).filter (fun c => !isCJK c)).map Char.toLower =
      ['a'] := by decide
  have htok : (((splitBS ['a']).filter (fun w => !w.isEmpty)).map syllableCount) =
      [1] := by decide
  simp only [fkGradeOf, hplain, hcs, hes, hcw, hew, hec, htok]
  norm_num

/-- C4: on the single-letter input "a" the computed grade is -3.595, so the
normalization takes Math.log of the negative number -2.595 and the function
returns NaN (modelled as none) instead of a value in the contracted interval
from 0.1 to 1; the empty and whitespace-only inputs do return exactly
0.1. -/
theorem calculateComplexity_nan_on_single_letter :
    calculateComplexity "a" = none ∧
    calculateComplexity "" = some (1/10) ∧
    calculateComplexity "   " = some (1/10) := by
  refine ⟨?_, ?_, ?_⟩
  · have hws : ("a".data.all jsWhitespace) = false := by decide
    have hg : fkGradeOf "a" = -719/200 := fkGradeOf_single_letter
    have hneg : fkGradeOf "a" + 1 < 0 := by
      rw [hg]
      norm_num
    simp only [calculateComplexity, hws, Bool.false_eq_true, if_false, if_pos hneg]
  · have hws : ("".data.all jsWhitespace) = true := by decide
    simp only [calculateComplexity, hws, if_true]
  · have hws : ("   ".data.all jsWhitespace) = true := by decide
    simp only [calculateComplexity, hws, if_true]
